import Mathlib

/-!
Verification of the DocChat walkthrough notebook
(src/notebooks/walkthrough.ipynb).

The notebook is a linear sequence of library calls: read an API key into
the environment, load PDF documents from a directory, split their text
into chunks, embed the chunks into a vector store, retrieve similar
chunks, and answer questions through a hosted language model.  Text is
modelled character-by-character as `List Char`.  The library calls whose
code is not part of this repository (langchain's CharacterTextSplitter,
DirectoryLoader, Chroma, the retriever and the chat chain) are modelled
from the specification; the notebook's own wiring (the parameters it
passes, the variables it rebinds, the list it appends to) is translated
directly from the notebook cells.
-/

namespace DocChat

/-- Text as a list of characters. -/
abbrev Str := List Char

/-- A loaded document: raw page content plus its source path
(the metadata langchain attaches to loaded and split documents). -/
structure Document where
  page_content : Str
  source : Str
deriving DecidableEq

/-! ## The splitting step

`CharacterTextSplitter(chunk_size=1000, chunk_overlap=40)` from the
notebook's fourth code cell.  The splitter itself is langchain code,
absent from this repository, so it is modelled from the spec. -/

/-- The default separator of langchain's CharacterTextSplitter: the
blank line `"\n\n"`. -/
def sepNN : Str := ['\n', '\n']

/-- Modelled from the spec: the first phase of the external
CharacterTextSplitter, which cuts the text at every occurrence of the
separator `"\n\n"` into semantic units (separator-free segments).
`acc` holds the characters of the current unit in reverse. -/
def splitNN : Str → Str → List Str
  | [], acc => [acc.reverse]
  | '\n' :: '\n' :: rest, acc => acc.reverse :: splitNN rest []
  | c :: rest, acc => splitNN rest (c :: acc)

/-- Joining a run of semantic units back together, re-inserting the
separator between adjacent units (the external splitter joins the units
of a chunk with the separator it split on). -/
def joinUnits : List Str → Str
  | [] => []
  | [u] => u
  | u :: us => u ++ sepNN ++ joinUnits us

/-- Configuration of the splitting step: the arguments the notebook
passes to CharacterTextSplitter. -/
structure SplitterConfig where
  chunk_size : Nat
  chunk_overlap : Nat
deriving DecidableEq

/-- Modelled from the spec: after a chunk is flushed, the external
splitter keeps dropping units from the front of the pending run while
the retained run is longer than the configured overlap or would not fit
in the chunk budget together with the incoming unit (of length `ulen`);
what remains is carried into the next chunk as overlap. -/
def popOverlap (cfg : SplitterConfig) (ulen : Nat) : List Str → List Str
  | [] => []
  | u :: rest =>
    if cfg.chunk_overlap < (joinUnits (u :: rest)).length ∨
        cfg.chunk_size < (joinUnits (u :: rest)).length + sepNN.length + ulen then
      popOverlap cfg ulen rest
    else
      u :: rest

/-- Flushing the accumulated run `current` in front of the recursive
result `rec`: the run is emitted as a chunk when non-empty, and a
warning recording its joined size is emitted when that size exceeds the
configured chunk size. -/
def mergeFlush (cfg : SplitterConfig) (current : List Str)
    (rec : List (List Str) × List Nat) : List (List Str) × List Nat :=
  (if current.isEmpty then rec.1 else current :: rec.1,
   if cfg.chunk_size < (joinUnits current).length
     then (joinUnits current).length :: rec.2 else rec.2)

/-- Modelled from the spec: the merge phase of the external splitter.
Units are accumulated greedily into `current` while the joined length
stays within `chunk_size`; when the next unit would overflow, the
accumulated run is flushed as a chunk (with a warning whenever its size
exceeds `chunk_size`, which happens exactly when a single semantic unit
is oversized) and a suffix within the overlap budget is carried over.
Returns the list of chunks (each as its run of units) together with the
list of warned sizes. -/
def mergeAux (cfg : SplitterConfig) : List Str → List Str → List (List Str) × List Nat
  | current, [] => (if current.isEmpty then [] else [current], [])
  | current, u :: us =>
    if (joinUnits (current ++ [u])).length ≤ cfg.chunk_size then
      mergeAux cfg (current ++ [u]) us
    else
      mergeFlush cfg current (mergeAux cfg (popOverlap cfg u.length current ++ [u]) us)

/-- Modelled from the spec: `split_text` of the external splitter —
cut at separators, merge with budget and overlap, join each chunk's
units with the separator, and drop chunks whose text is empty. -/
def split_text (cfg : SplitterConfig) (text : Str) : List Str :=
  ((mergeAux cfg [] (splitNN text [])).1.map joinUnits).filter (fun c => !c.isEmpty)

/-- The sizes the splitter warns about while splitting `text`
(langchain logs "Created a chunk of size N, which is longer than the
specified chunk_size" for each of them). -/
def split_text_warnings (cfg : SplitterConfig) (text : Str) : List Nat :=
  (mergeAux cfg [] (splitNN text [])).2

/-- The notebook's splitter configuration:
`CharacterTextSplitter(chunk_size=1000, chunk_overlap=40)`. -/
def text_splitter : SplitterConfig := ⟨1000, 40⟩

/-- `text_splitter.split_documents(documents)`: split every document's
page content and keep each chunk's source metadata. -/
def split_documents (cfg : SplitterConfig) (docs : List Document) : List Document :=
  docs.flatMap fun d => (split_text cfg d.page_content).map fun c => ⟨c, d.source⟩

/-- All warnings emitted while splitting a list of documents. -/
def split_documents_warnings (cfg : SplitterConfig) (docs : List Document) : List Nat :=
  docs.flatMap fun d => split_text_warnings cfg d.page_content

/-! ## The credential step

`os.environ['OPENAI_API_KEY'] = getpass.getpass('OpenAI API Key:')`
from the notebook's second code cell.  The process environment is
modelled as a partial map from variable names to values. -/

/-- The name of the environment variable the notebook sets. -/
def openai_api_key_name : Str := "OPENAI_API_KEY".data

/-- The credential step: store the string entered at the prompt under
OPENAI_API_KEY, leaving every other variable of the environment as it
was. -/
def set_openai_api_key (env : Str → Option Str) (entered : Str) : Str → Option Str :=
  fun k => if k = openai_api_key_name then some entered else env k

/-! ## The loading step

`DirectoryLoader('../documents/', glob="**/*.pdf")` followed by
`documents.extend(pdf_loader.load())` from the notebook's third code
cell.  The loader is langchain code, absent from this repository, so
its selection of files is modelled from the spec. -/

/-- A file of the filesystem the loader scans: a path and its raw
content. -/
structure FileEntry where
  path : Str
  content : Str
deriving DecidableEq

/-- The directory the notebook points the loader at. -/
def pdf_loader_dir : Str := "../documents/".data

/-- Modelled from the spec: whether a path is matched by the recursive
glob pattern for pdf files under the loader's directory — the path
lies under the directory (the pattern's leading recursive component
matches any chain of subdirectories, including none) and ends in the
pdf extension. -/
def matches_pdf_glob (dir : Str) (p : Str) : Bool :=
  dir.isPrefixOf p && ".pdf".data.isSuffixOf p

/-- Modelled from the spec: `pdf_loader.load()` — every file of the
scanned filesystem whose path matches the glob becomes a Document
carrying that file's parsed content and its path as source metadata;
no other file contributes. -/
def pdf_loader_load (fs : List FileEntry) : List Document :=
  (fs.filter fun f => matches_pdf_glob pdf_loader_dir f.path).map fun f => ⟨f.content, f.path⟩

/-- `num_docs = len(documents)` from the third code cell. -/
def num_docs (documents : List Document) : Nat := documents.length

/-- `num_chars = sum([len(document.page_content) for document in
documents])` from the third code cell. -/
def num_chars (documents : List Document) : Nat :=
  (documents.map fun document => document.page_content.length).sum

/-! ## Vector store, retriever and chat chain

`Chroma.from_documents`, `vectorstore.similarity_search`,
`vectorstore.as_retriever` and `ConversationalRetrievalChain` are
external library code, modelled from the spec.  Embedding of text is an
opaque external computation: it is represented by a score oracle, and
retrieval ranks the stored entries by that score. -/

/-- Modelled from the spec: the vector store holds the documents it
was built from (each alongside its embedding, which is opaque to this
repository and therefore not represented). -/
structure VectorStore where
  entries : List Document
deriving DecidableEq

/-- A retriever handle: its search type and the number `k` of chunks
it returns. -/
structure Retriever where
  search_type : Str
  k : Nat
deriving DecidableEq

/-- The search type string the notebook passes to `as_retriever`. -/
def similarity_search_type : Str := "similarity".data

/-- `vectorstore.as_retriever(search_type=..., search_kwargs=...)`. -/
def as_retriever (st : Str) (k : Nat) : Retriever := ⟨st, k⟩

/-- Insert a document into a list already ranked by descending score,
keeping the ranking. -/
def insertRanked (score : Document → Nat) (d : Document) : List Document → List Document
  | [] => [d]
  | e :: es => if score e ≤ score d then d :: e :: es else e :: insertRanked score d es

/-- Rank a list of documents by descending score. -/
def rankBy (score : Document → Nat) : List Document → List Document
  | [] => []
  | d :: ds => insertRanked score d (rankBy score ds)

/-- Modelled from the spec: `vectorstore.similarity_search(text)` —
rank the stored entries by similarity to the query (the score oracle
stands for the external embedding comparison) and return the best `k`,
with the library's default of 4 when no `k` is passed. -/
def VectorStore.similarity_search (vs : VectorStore) (score : Document → Nat)
    (k : Nat := 4) : List Document :=
  (rankBy score vs.entries).take k

/-- Modelled from the spec: what the retriever hands the chain — the
best `k` stored entries by similarity to the query. -/
def Retriever.get_relevant (r : Retriever) (score : Document → Nat)
    (vs : VectorStore) : List Document :=
  (rankBy score vs.entries).take r.k

/-- The temperature the notebook passes to the OpenAI llm. -/
def temperature : Nat := 0

/-- The `k` the notebook passes to `as_retriever` in search_kwargs. -/
def search_k : Nat := 2

/-- The retriever the notebook builds:
`vectorstore.as_retriever(search_type="similarity", search_kwargs=...)`
with k set to 2. -/
def retriever : Retriever := as_retriever similarity_search_type search_k

/-! ## The pipeline

The notebook as a whole: a straight-line sequence of calls.  The
external, fallible effects (reading pdfs from disk, computing
embeddings over the network, calling the hosted llm) are oracles; each
may fail with an exception `ε`, and the notebook contains no handler,
so the embedding sequences them with the exception monad `Except ε`
and any failure propagates. -/

/-- The external library effects the notebook invokes.  `load_pdfs` is
`pdf_loader.load()`; `embed_documents` is the network side of
`Chroma.from_documents`; `embed_query` embeds a query and yields the
similarity score oracle against stored documents; `llm_answer` is the
hosted llm call of the ConversationalRetrievalChain, taking the
temperature, the retrieved chunks, the chat history and the question. -/
structure Oracles (ε : Type) where
  load_pdfs : Except ε (List Document)
  embed_documents : List Document → Except ε Unit
  embed_query : Str → Except ε (Document → Nat)
  llm_answer : Nat → List Document → List (Str × Str) → Str → Except ε Str

/-- Modelled from the spec: `Chroma.from_documents(documents,
embeddings)` — embed the given documents (a network call that may
fail) and build the store holding exactly those documents. -/
def chroma_from_documents {ε : Type} (embed : List Document → Except ε Unit)
    (docs : List Document) : Except ε VectorStore :=
  embed docs >>= fun _ => .ok ⟨docs⟩

/-- The question asked both in the similarity-search cell and in the
chat cell. -/
def demo_query : Str := "What makes Retentive Networks good?".data

/-- Everything the notebook run leaves behind. -/
structure PipelineResult where
  documents : List Document
  demo_docs : List Document
  vectorstore : VectorStore
  retrieved : List Document
  chat_history : List (Str × Str)
deriving DecidableEq

/-- The notebook, end to end: load the pdfs, rebind `documents` to the
split chunks, build the vector store from the chunks, run the demo
similarity search, build the retriever and the chat chain, ask the
demo question and append the one (query, answer) turn to the initially
empty chat history.  Every stage is a single call whose result feeds
the next; there is no branching and no handler. -/
def runPipeline {ε : Type} (o : Oracles ε) : Except ε PipelineResult :=
  o.load_pdfs >>= fun documents0 =>
  o.embed_documents (split_documents text_splitter documents0) >>= fun _ =>
  o.embed_query demo_query >>= fun score0 =>
  o.embed_query demo_query >>= fun score1 =>
  o.llm_answer temperature
      ((as_retriever similarity_search_type search_k).get_relevant score1
        ⟨split_documents text_splitter documents0⟩) [] demo_query >>= fun answer =>
  .ok ⟨split_documents text_splitter documents0,
       VectorStore.similarity_search ⟨split_documents text_splitter documents0⟩ score0,
       ⟨split_documents text_splitter documents0⟩,
       (as_retriever similarity_search_type search_k).get_relevant score1
         ⟨split_documents text_splitter documents0⟩,
       [(demo_query, answer)]⟩

/-- The state the chat cell operates on. -/
structure NotebookState where
  documents : List Document
  vectorstore : VectorStore
  retriever : Retriever
  chat_history : List (Str × Str)
deriving DecidableEq

/-- The chat cell as a step: call the chain on the question and the
current history, then `chat_history.append((query, result["answer"]))`.
Nothing else of the state is touched. -/
def ask_question {ε : Type} (o : Oracles ε) (st : NotebookState) (query : Str) :
    Except ε (NotebookState × Str) :=
  o.embed_query query >>= fun score =>
  o.llm_answer temperature (st.retriever.get_relevant score st.vectorstore)
      st.chat_history query >>= fun answer =>
  .ok ({ st with chat_history := st.chat_history ++ [(query, answer)] }, answer)

/-! ## Concrete inputs used by witnesses and counterexamples -/

/-- A document of two 600-character semantic units separated by one
blank line: 1202 characters in total, so the two units land in two
different chunks. -/
def docA : Document :=
  ⟨List.replicate 600 'a' ++ sepNN ++ List.replicate 600 'b', "retnet.pdf".data⟩

/-- A document whose first semantic unit is 1001 characters long:
the splitter can only warn about it and keep it whole. -/
def docBig : Document :=
  ⟨List.replicate 1001 'a' ++ sepNN ++ ['b'], "big.pdf".data⟩

/-- The oversized chunk the splitter produces from `docBig`. -/
def chunkBig : Document := ⟨List.replicate 1001 'a', "big.pdf".data⟩

/-- A tiny document for pipeline witnesses. -/
def docS : Document := ⟨"hi".data, "../documents/s.pdf".data⟩

/-- Oracles that all succeed, for witnesses. -/
def oraclesOk : Oracles Unit :=
  ⟨.ok [docS], fun _ => .ok (), fun _ => .ok (fun _ => 0), fun _ _ _ _ => .ok "fine".data⟩

/-- Oracles whose pdf loading fails with error 7. -/
def oraclesFailLoad : Oracles Nat :=
  ⟨.error 7, fun _ => .ok (), fun _ => .ok (fun _ => 0), fun _ _ _ _ => .ok []⟩

/-- Oracles whose document embedding fails with error 8. -/
def oraclesFailEmbed : Oracles Nat :=
  ⟨.ok [docS], fun _ => .error 8, fun _ => .ok (fun _ => 0), fun _ _ _ _ => .ok []⟩

/-- Oracles whose query embedding fails with error 9. -/
def oraclesFailQuery : Oracles Nat :=
  ⟨.ok [docS], fun _ => .ok (), fun _ => .error 9, fun _ _ _ _ => .ok []⟩

/-- Oracles whose llm call fails with error 10. -/
def oraclesFailLLM : Oracles Nat :=
  ⟨.ok [docS], fun _ => .ok (), fun _ => .ok (fun _ => 0), fun _ _ _ _ => .error 10⟩

/-- A chat state with one earlier turn, for the chat-step witness. -/
def stW : NotebookState := ⟨[docS], ⟨[docS]⟩, retriever, [("q0".data, "a0".data)]⟩

/-- The state the chat step leaves when asked `demo_query` under
`oraclesOk`. -/
def stWafter : NotebookState :=
  { stW with chat_history := stW.chat_history ++ [(demo_query, "fine".data)] }

/-- What running the whole pipeline under `oraclesOk` produces: the
single two-character document is its own single chunk. -/
def resultW : PipelineResult :=
  ⟨[docS], [docS], ⟨[docS]⟩, [docS], [(demo_query, "fine".data)]⟩

/-! ## Lemmas about the splitter -/

@[simp]
theorem length_sepNN : sepNN.length = 2 := rfl

theorem joinUnits_append_last (l : List Str) (u : Str) (h : l ≠ []) :
    joinUnits (l ++ [u]) = joinUnits l ++ sepNN ++ u := by
  induction l with
  | nil => exact absurd rfl h
  | cons v vs ih =>
    cases vs with
    | nil => simp [joinUnits]
    | cons w ws =>
      simp only [List.cons_append, joinUnits, List.append_eq]
      rw [← List.cons_append, ih (by simp)]
      simp [List.append_assoc]

theorem mem_popOverlap (cfg : SplitterConfig) (n : Nat) :
    ∀ (l : List Str), ∀ x ∈ popOverlap cfg n l, x ∈ l := by
  intro l
  induction l with
  | nil => intro x hx; simp [popOverlap] at hx
  | cons u rest ih =>
    intro x hx
    simp only [popOverlap] at hx
    split at hx
    · exact List.mem_cons_of_mem _ (ih x hx)
    · exact hx

theorem popOverlap_spec (cfg : SplitterConfig) (n : Nat) :
    ∀ l : List Str, popOverlap cfg n l = [] ∨
      ((joinUnits (popOverlap cfg n l)).length ≤ cfg.chunk_overlap ∧
        (joinUnits (popOverlap cfg n l)).length + 2 + n ≤ cfg.chunk_size) := by
  intro l
  induction l with
  | nil => left; simp [popOverlap]
  | cons u rest ih =>
    simp only [popOverlap]
    split
    · exact ih
    · rename_i hcond
      right
      simp only [length_sepNN, not_or, not_lt] at hcond
      exact ⟨hcond.1, hcond.2⟩

/-- A chunk the merge phase may emit: its joined text fits the chunk
budget, or it is a single oversized semantic unit. -/
def GoodChunk (cfg : SplitterConfig) (c : List Str) : Prop :=
  (joinUnits c).length ≤ cfg.chunk_size ∨ ∃ u, c = [u] ∧ cfg.chunk_size < u.length

theorem goodChunk_push (cfg : SplitterConfig) (current : List Str) (u : Str) :
    GoodChunk cfg (popOverlap cfg u.length current ++ [u]) := by
  cases h : popOverlap cfg u.length current with
  | nil =>
    by_cases hu : u.length ≤ cfg.chunk_size
    · left; simpa [joinUnits] using hu
    · right; exact ⟨u, rfl, by omega⟩
  | cons v vs =>
    left
    have hspec := popOverlap_spec cfg u.length current
    rw [h] at hspec
    rcases hspec with habs | ⟨_, hfit⟩
    · exact absurd habs (by simp)
    · rw [joinUnits_append_last _ _ (by simp)]
      simp only [List.length_append, length_sepNN]
      omega

theorem chunks_good (cfg : SplitterConfig) :
    ∀ (us current : List Str), GoodChunk cfg current →
      ∀ c ∈ (mergeAux cfg current us).1, GoodChunk cfg c := by
  intro us
  induction us with
  | nil =>
    intro current hcur c hc
    simp only [mergeAux] at hc
    split at hc
    · simp at hc
    · rw [List.mem_singleton] at hc
      exact hc ▸ hcur
  | cons u us ih =>
    intro current hcur c hc
    simp only [mergeAux] at hc
    split at hc
    · rename_i hfit
      exact ih _ (Or.inl hfit) c hc
    · simp only [mergeFlush] at hc
      have hrec := ih (popOverlap cfg u.length current ++ [u]) (goodChunk_push cfg current u)
      split at hc
      · exact hrec c hc
      · rcases List.mem_cons.mp hc with rfl | hc'
        · exact hcur
        · exact hrec c hc'

theorem chunk_units_from_splits (cfg : SplitterConfig) :
    ∀ (us current : List Str), ∀ c ∈ (mergeAux cfg current us).1,
      ∀ x ∈ c, x ∈ current ∨ x ∈ us := by
  intro us
  induction us with
  | nil =>
    intro current c hc x hx
    simp only [mergeAux] at hc
    split at hc
    · simp at hc
    · rw [List.mem_singleton] at hc
      exact Or.inl (hc ▸ hx)
  | cons u us ih =>
    intro current c hc x hx
    simp only [mergeAux] at hc
    split at hc
    · rcases ih _ c hc x hx with hcur | hus
      · rcases List.mem_append.mp hcur with h | h
        · exact Or.inl h
        · exact Or.inr (List.mem_cons.mpr (Or.inl (List.mem_singleton.mp h)))
      · exact Or.inr (List.mem_cons_of_mem _ hus)
    · simp only [mergeFlush] at hc
      have step : c ∈ (mergeAux cfg (popOverlap cfg u.length current ++ [u]) us).1 →
          x ∈ current ∨ x ∈ u :: us := by
        intro hc'
        rcases ih _ c hc' x hx with hcur | hus
        · rcases List.mem_append.mp hcur with h | h
          · exact Or.inl (mem_popOverlap cfg u.length current x h)
          · exact Or.inr (List.mem_cons.mpr (Or.inl (List.mem_singleton.mp h)))
        · exact Or.inr (List.mem_cons_of_mem _ hus)
      split at hc
      · exact step hc
      · rcases List.mem_cons.mp hc with rfl | hc'
        · exact Or.inl hx
        · exact step hc'

theorem covered_by_some_chunk (cfg : SplitterConfig) :
    ∀ (us current : List Str) (x : Str), (x ∈ current ∨ x ∈ us) →
      ∃ c ∈ (mergeAux cfg current us).1, x ∈ c := by
  intro us
  induction us with
  | nil =>
    intro current x hx
    rcases hx with hx | hx
    · cases current with
      | nil => simp at hx
      | cons v vs =>
        refine ⟨v :: vs, ?_, hx⟩
        simp [mergeAux]
    · simp at hx
  | cons u us ih =>
    intro current x hx
    simp only [mergeAux]
    split
    · apply ih
      rcases hx with hx | hx
      · exact Or.inl (List.mem_append.mpr (Or.inl hx))
      · rcases List.mem_cons.mp hx with rfl | hx'
        · exact Or.inl (List.mem_append.mpr (Or.inr (List.mem_singleton.mpr rfl)))
        · exact Or.inr hx'
    · simp only [mergeFlush]
      rcases hx with hx | hx
      · have hne : current.isEmpty = false := by
          cases current with
          | nil => simp at hx
          | cons v vs => rfl
        rw [hne]
        exact ⟨current, List.mem_cons_self _ _, hx⟩
      · have hrec : ∃ c ∈ (mergeAux cfg (popOverlap cfg u.length current ++ [u]) us).1, x ∈ c := by
          apply ih
          rcases List.mem_cons.mp hx with rfl | hx'
          · exact Or.inl (List.mem_append.mpr (Or.inr (List.mem_singleton.mpr rfl)))
          · exact Or.inr hx'
        rcases hrec with ⟨c, hc, hxc⟩
        refine ⟨c, ?_, hxc⟩
        split
        · exact hc
        · exact List.mem_cons_of_mem _ hc

theorem warned_chunk_kept (cfg : SplitterConfig) :
    ∀ (us current : List Str), ∀ w ∈ (mergeAux cfg current us).2,
      ∃ c ∈ (mergeAux cfg current us).1, (joinUnits c).length = w ∧ cfg.chunk_size < w := by
  intro us
  induction us with
  | nil =>
    intro current w hw
    simp only [mergeAux] at hw
    simp at hw
  | cons u us ih =>
    intro current w hw
    simp only [mergeAux] at hw ⊢
    split at hw
    · rename_i hfit
      rw [if_pos hfit]
      exact ih _ w hw
    · rename_i hfit
      rw [if_neg hfit]
      simp only [mergeFlush] at hw ⊢
      have hrec : w ∈ (mergeAux cfg (popOverlap cfg u.length current ++ [u]) us).2 →
          ∃ c ∈ (if current.isEmpty then (mergeAux cfg (popOverlap cfg u.length current ++ [u]) us).1
                  else current :: (mergeAux cfg (popOverlap cfg u.length current ++ [u]) us).1),
            (joinUnits c).length = w ∧ cfg.chunk_size < w := by
        intro hw'
        rcases ih _ w hw' with ⟨c, hc, hlen, hgt⟩
        refine ⟨c, ?_, hlen, hgt⟩
        split
        · exact hc
        · exact List.mem_cons_of_mem _ hc
      split at hw
      · rename_i hbig
        rcases List.mem_cons.mp hw with rfl | hw'
        · have hne : current.isEmpty = false := by
            cases current with
            | nil => simp [joinUnits] at hbig
            | cons v vs => rfl
          rw [hne]
          exact ⟨current, List.mem_cons_self _ _, rfl, hbig⟩
        · exact hrec hw'
      · exact hrec hw

theorem joinUnits_decomp : ∀ (c : List Str) (x : Str), x ∈ c →
    ∃ s t, joinUnits c = s ++ x ++ t := by
  intro c
  induction c with
  | nil => intro x hx; simp at hx
  | cons u us ih =>
    intro x hx
    cases us with
    | nil =>
      rw [List.mem_singleton] at hx
      exact ⟨[], [], by simp [joinUnits, hx]⟩
    | cons v vs =>
      rcases List.mem_cons.mp hx with rfl | hx'
      · exact ⟨[], sepNN ++ joinUnits (v :: vs), by simp [joinUnits, List.append_assoc]⟩
      · rcases ih x hx' with ⟨s, t, hst⟩
        exact ⟨u ++ sepNN ++ s, t, by simp [joinUnits, hst, List.append_assoc]⟩

theorem length_le_joinUnits (c : List Str) (x : Str) (hx : x ∈ c) :
    x.length ≤ (joinUnits c).length := by
  rcases joinUnits_decomp c x hx with ⟨s, t, hst⟩
  rw [hst]
  simp only [List.length_append]
  omega

theorem chunk_mem_split_documents (cfg : SplitterConfig) (docs : List Document)
    (orig : Document) (horig : orig ∈ docs) (cu : List Str)
    (hcu : cu ∈ (mergeAux cfg [] (splitNN orig.page_content [])).1)
    (hne : joinUnits cu ≠ []) :
    (⟨joinUnits cu, orig.source⟩ : Document) ∈ split_documents cfg docs := by
  simp only [split_documents, List.mem_flatMap]
  refine ⟨orig, horig, ?_⟩
  rw [List.mem_map]
  refine ⟨joinUnits cu, ?_, rfl⟩
  simp only [split_text, List.mem_filter]
  constructor
  · rw [List.mem_map]
    exact ⟨cu, hcu, rfl⟩
  · simp [List.isEmpty_iff, hne]

/-! ## The claims -/

set_option maxRecDepth 100000

/-- C1: every chunk produced by the splitting step configured with
chunk_size 1000 has character length at most 1000, except when the
chunk is a single semantic unit (a separator-free segment of the
source text) that itself exceeds 1000 characters; and every size the
splitter warns about belongs to an oversized chunk that is still kept
in the output list passed downstream rather than rejected or
truncated. -/
theorem C1_chunk_size_bound :
    (∀ docs : List Document, ∀ d ∈ split_documents text_splitter docs,
        d.page_content.length ≤ 1000 ∨
          (1000 < d.page_content.length ∧
            ∃ orig ∈ docs, d.page_content ∈ splitNN orig.page_content [])) ∧
    (∀ docs : List Document, ∀ w ∈ split_documents_warnings text_splitter docs,
        ∃ d ∈ split_documents text_splitter docs,
          d.page_content.length = w ∧ 1000 < w) := by
  constructor
  · intro docs d hd
    simp only [split_documents, List.mem_flatMap] at hd
    rcases hd with ⟨orig, horig, hd⟩
    rw [List.mem_map] at hd
    rcases hd with ⟨c, hc, rfl⟩
    simp only [split_text, List.mem_filter, List.mem_map] at hc
    rcases hc with ⟨⟨cu, hcu, rfl⟩, _⟩
    have hgood := chunks_good text_splitter (splitNN orig.page_content []) []
      (Or.inl (by simp [joinUnits])) cu hcu
    rcases hgood with hle | ⟨u, rfl, hbig⟩
    · exact Or.inl hle
    · right
      have hmem : u ∈ splitNN orig.page_content [] := by
        rcases chunk_units_from_splits text_splitter _ [] _ hcu u
            (List.mem_singleton.mpr rfl) with h | h
        · simp at h
        · exact h
      refine ⟨?_, orig, horig, ?_⟩
      · simpa [joinUnits] using hbig
      · simpa [joinUnits] using hmem
  · intro docs w hw
    simp only [split_documents_warnings, List.mem_flatMap] at hw
    rcases hw with ⟨orig, horig, hw⟩
    rcases warned_chunk_kept text_splitter _ [] w hw with ⟨cu, hcu, hlen, hgt⟩
    have hne : joinUnits cu ≠ [] := by
      intro h
      rw [h] at hlen
      simp at hlen
      omega
    exact ⟨⟨joinUnits cu, orig.source⟩,
      chunk_mem_split_documents text_splitter docs orig horig cu hcu hne, hlen, hgt⟩

/-- Witness for C1 at a concrete input: `docBig` holds a 1001-character
semantic unit; the splitter keeps it whole as the chunk `chunkBig` and
warns with size 1001, and that warned chunk is in the output. -/
theorem C1_chunk_size_bound_witness :
    (chunkBig.page_content.length ≤ 1000 ∨
      (1000 < chunkBig.page_content.length ∧
        ∃ orig ∈ [docBig], chunkBig.page_content ∈ splitNN orig.page_content [])) ∧
    (∃ d ∈ split_documents text_splitter [docBig],
      d.page_content.length = 1001 ∧ 1000 < 1001) :=
  ⟨C1_chunk_size_bound.1 [docBig] chunkBig (by decide),
   C1_chunk_size_bound.2 [docBig] 1001 (by decide)⟩

/-- C2 counterexample: the document `docA` consists of two
600-character semantic units separated by the two newline characters
of a blank line; splitting it with chunk size 1000 and overlap 40
yields two chunks, and the newline characters of the document's text
appear in neither, so not every character of the document appears in a
chunk. -/
theorem C2_cover_counterexample :
    '\n' ∈ docA.page_content ∧
      ((split_documents text_splitter [docA]).all
        fun d => !(d.page_content.contains '\n')) = true := by
  constructor
  · decide
  · decide

/-- C2 amended: splitting with chunk size 1000 and overlap 40 covers
every semantic unit — every nonempty separator-free segment of every
document's text appears contiguously inside at least one chunk of the
output; only separator characters that fall between two consecutive
chunks can be absent from every chunk. -/
theorem C2_units_covered :
    ∀ docs : List Document, ∀ orig ∈ docs, ∀ u ∈ splitNN orig.page_content [],
      u ≠ [] → ∃ d ∈ split_documents text_splitter docs,
        ∃ s t, d.page_content = s ++ u ++ t := by
  intro docs orig horig u hu hune
  rcases covered_by_some_chunk text_splitter (splitNN orig.page_content []) [] u
      (Or.inr hu) with ⟨cu, hcu, hucu⟩
  rcases joinUnits_decomp cu u hucu with ⟨s, t, hst⟩
  have hlen := length_le_joinUnits cu u hucu
  have hne : joinUnits cu ≠ [] := by
    intro h
    rw [h] at hlen
    simp only [List.length_nil, Nat.le_zero, List.length_eq_zero] at hlen
    exact hune hlen
  exact ⟨⟨joinUnits cu, orig.source⟩,
    chunk_mem_split_documents text_splitter docs orig horig cu hcu hne, s, t, hst⟩

/-- Witness for the amended C2 at a concrete input: the first
600-character unit of `docA` appears contiguously in a chunk of the
split output. -/
theorem C2_units_covered_witness :
    ∃ d ∈ split_documents text_splitter [docA],
      ∃ s t, d.page_content = s ++ List.replicate 600 'a' ++ t :=
  C2_units_covered [docA] docA (List.mem_singleton.mpr rfl) (List.replicate 600 'a')
    (by decide) (by decide)

theorem except_ok_bind {ε α β : Type} (a : α) (f : α → Except ε β) :
    (Except.ok a >>= f) = f a := rfl

theorem except_error_bind {ε α β : Type} (e : ε) (f : α → Except ε β) :
    ((Except.error e : Except ε α) >>= f) = Except.error e := rfl

/-- C3: no step of the pipeline catches or handles exceptions — if any
external call fails (loading the pdfs, embedding the chunks, embedding
a query, or the chat llm call), that very exception is the outcome of
the whole run, with no retry or recovery in between. -/
theorem C3_no_error_handling :
    ∀ (ε : Type) (o : Oracles ε) (e : ε),
      (o.load_pdfs = .error e → runPipeline o = .error e) ∧
      (∀ docs, o.load_pdfs = .ok docs →
        o.embed_documents (split_documents text_splitter docs) = .error e →
        runPipeline o = .error e) ∧
      (∀ docs, o.load_pdfs = .ok docs →
        o.embed_documents (split_documents text_splitter docs) = .ok () →
        o.embed_query demo_query = .error e →
        runPipeline o = .error e) ∧
      (∀ docs score, o.load_pdfs = .ok docs →
        o.embed_documents (split_documents text_splitter docs) = .ok () →
        o.embed_query demo_query = .ok score →
        o.llm_answer temperature
          ((as_retriever similarity_search_type search_k).get_relevant score
            ⟨split_documents text_splitter docs⟩) [] demo_query = .error e →
        runPipeline o = .error e) := by
  intro ε o e
  refine ⟨?_, ?_, ?_, ?_⟩
  · intro h
    simp only [runPipeline, h, except_error_bind]
  · intro docs h1 h2
    simp only [runPipeline, h1, except_ok_bind, h2, except_error_bind]
  · intro docs h1 h2 h3
    simp only [runPipeline, h1, except_ok_bind, h2, h3, except_error_bind]
  · intro docs score h1 h2 h3 h4
    simp only [runPipeline, h1, except_ok_bind, h2, h3, h4, except_error_bind]

/-- Witness for C3: concrete oracle families failing at each of the
four fallible stages, each propagating its own error to the top. -/
theorem C3_no_error_handling_witness :
    runPipeline oraclesFailLoad = .error 7 ∧
    runPipeline oraclesFailEmbed = .error 8 ∧
    runPipeline oraclesFailQuery = .error 9 ∧
    runPipeline oraclesFailLLM = .error 10 :=
  ⟨(C3_no_error_handling Nat oraclesFailLoad 7).1 rfl,
   (C3_no_error_handling Nat oraclesFailEmbed 8).2.1 [docS] rfl rfl,
   (C3_no_error_handling Nat oraclesFailQuery 9).2.2.1 [docS] rfl rfl rfl,
   (C3_no_error_handling Nat oraclesFailLLM 10).2.2.2 [docS] (fun _ => 0) rfl rfl rfl rfl⟩

/-- C4: a successful chat interaction appends exactly one (query,
answer) pair at the end of the chat history, keeps every earlier turn
in place, and changes nothing else of the program state — the chunk
list, the vector store and the retriever are untouched. -/
theorem C4_chat_appends_one_turn :
    ∀ (ε : Type) (o : Oracles ε) (st : NotebookState) (q : Str)
      (st' : NotebookState) (ans : Str),
      ask_question o st q = .ok (st', ans) →
        st'.chat_history = st.chat_history ++ [(q, ans)] ∧
        st'.chat_history.length = st.chat_history.length + 1 ∧
        st'.chat_history.take st.chat_history.length = st.chat_history ∧
        st'.documents = st.documents ∧
        st'.vectorstore = st.vectorstore ∧
        st'.retriever = st.retriever := by
  intro ε o st q st' ans h
  simp only [ask_question] at h
  cases hq : o.embed_query q with
  | error e =>
    simp only [hq, except_error_bind] at h
    exact Except.noConfusion h
  | ok score =>
    simp only [hq, except_ok_bind] at h
    cases ha : o.llm_answer temperature (st.retriever.get_relevant score st.vectorstore)
        st.chat_history q with
    | error e =>
      simp only [ha, except_error_bind] at h
      exact Except.noConfusion h
    | ok answer =>
      simp only [ha, except_ok_bind, Except.ok.injEq, Prod.mk.injEq] at h
      obtain ⟨h1, h2⟩ := h
      subst h1
      subst h2
      exact ⟨rfl, by simp, List.take_left _ _, rfl, rfl, rfl⟩

/-- Witness for C4 at a concrete input: asking the demo question in a
state with one earlier turn appends exactly that turn. -/
theorem C4_chat_appends_one_turn_witness :
    stWafter.chat_history = stW.chat_history ++ [(demo_query, "fine".data)] ∧
    stWafter.chat_history.length = stW.chat_history.length + 1 ∧
    stWafter.chat_history.take stW.chat_history.length = stW.chat_history ∧
    stWafter.documents = stW.documents ∧
    stWafter.vectorstore = stW.vectorstore ∧
    stWafter.retriever = stW.retriever :=
  C4_chat_appends_one_turn Unit oraclesOk stW demo_query stWafter "fine".data rfl

/-- C5: the program is the fixed linear composition load, split,
embed and store, demo similarity search, retrieve, llm answer — each
stage a single oracle call receiving its configuration parameters
unchanged (chunk_size 1000, chunk_overlap 40, search type
"similarity", k 2, temperature 0) and feeding its result directly to
the next stage, with no branching in between. -/
theorem C5_linear_pipeline :
    (∀ (ε : Type) (o : Oracles ε), runPipeline o =
      (o.load_pdfs >>= fun documents0 =>
       o.embed_documents (split_documents ⟨1000, 40⟩ documents0) >>= fun _ =>
       o.embed_query demo_query >>= fun score0 =>
       o.embed_query demo_query >>= fun score1 =>
       o.llm_answer 0 ((as_retriever "similarity".data 2).get_relevant score1
          ⟨split_documents ⟨1000, 40⟩ documents0⟩) [] demo_query >>= fun answer =>
       .ok ⟨split_documents ⟨1000, 40⟩ documents0,
            VectorStore.similarity_search ⟨split_documents ⟨1000, 40⟩ documents0⟩ score0 4,
            ⟨split_documents ⟨1000, 40⟩ documents0⟩,
            (as_retriever "similarity".data 2).get_relevant score1
              ⟨split_documents ⟨1000, 40⟩ documents0⟩,
            [(demo_query, answer)]⟩)) ∧
    text_splitter = ⟨1000, 40⟩ ∧
    retriever = ⟨"similarity".data, 2⟩ ∧
    temperature = 0 :=
  ⟨fun _ _ => rfl, rfl, rfl, rfl⟩

/-- C6: after the credential step, OPENAI_API_KEY holds exactly the
string entered at the prompt, and every other environment variable is
exactly as it was — it is the only variable the program sets. -/
theorem C6_env_key :
    ∀ (env : Str → Option Str) (entered : Str),
      set_openai_api_key env entered "OPENAI_API_KEY".data = some entered ∧
      ∀ k : Str, k ≠ "OPENAI_API_KEY".data → set_openai_api_key env entered k = env k := by
  intro env entered
  constructor
  · simp [set_openai_api_key, openai_api_key_name]
  · intro k hk
    simp only [set_openai_api_key, openai_api_key_name]
    rw [if_neg hk]

/-- Witness for C6 at a concrete input: the key is set in an empty
environment and PATH is left untouched. -/
theorem C6_env_key_witness :
    set_openai_api_key (fun _ => none) "sk-test".data "OPENAI_API_KEY".data =
      some "sk-test".data ∧
    set_openai_api_key (fun _ => none) "sk-test".data "PATH".data = none :=
  ⟨(C6_env_key (fun _ => none) "sk-test".data).1,
   (C6_env_key (fun _ => none) "sk-test".data).2 "PATH".data (by decide)⟩

/-- C7: the loading step loads exactly the files whose path lies under
the fixed relative directory and matches the recursive pdf glob: every
such file becomes a loaded Document with that content and source, and
no other file contributes anything. -/
theorem C7_loader_glob :
    ∀ (fs : List FileEntry) (d : Document),
      d ∈ pdf_loader_load fs ↔
        ∃ f ∈ fs, ("../documents/".data.isPrefixOf f.path &&
          ".pdf".data.isSuffixOf f.path) = true ∧ d = ⟨f.content, f.path⟩ := by
  intro fs d
  simp only [pdf_loader_load, List.mem_map, List.mem_filter, matches_pdf_glob, pdf_loader_dir]
  constructor
  · rintro ⟨f, ⟨hf, hm⟩, rfl⟩
    exact ⟨f, hf, hm, rfl⟩
  · rintro ⟨f, hf, hm, rfl⟩
    exact ⟨f, ⟨hf, hm⟩, rfl⟩

/-- C8: the printed document count is the length of the loaded list
and the printed character count is the sum of the page content lengths
— stated for every document list, with the empty list giving 0 and 0
without error. -/
theorem C8_counts :
    ∀ documents : List Document,
      num_docs documents = documents.length ∧
      num_chars documents =
        List.foldr (fun document acc => document.page_content.length + acc) 0 documents ∧
      num_docs ([] : List Document) = 0 ∧
      num_chars ([] : List Document) = 0 := by
  intro documents
  refine ⟨rfl, ?_, rfl, rfl⟩
  induction documents with
  | nil => rfl
  | cons d ds ih =>
    simp only [num_chars, List.map_cons, List.sum_cons, List.foldr_cons] at ih ⊢
    omega

theorem mem_insertRanked (score : Document → Nat) (d : Document) :
    ∀ (l : List Document), ∀ x ∈ insertRanked score d l, x = d ∨ x ∈ l := by
  intro l
  induction l with
  | nil =>
    intro x hx
    simp only [insertRanked, List.mem_singleton] at hx
    exact Or.inl hx
  | cons e es ih =>
    intro x hx
    simp only [insertRanked] at hx
    split at hx
    · rcases List.mem_cons.mp hx with rfl | hx'
      · exact Or.inl rfl
      · exact Or.inr hx'
    · rcases List.mem_cons.mp hx with rfl | hx'
      · exact Or.inr (List.mem_cons_self _ _)
      · rcases ih x hx' with h | h
        · exact Or.inl h
        · exact Or.inr (List.mem_cons_of_mem _ h)

theorem mem_rankBy (score : Document → Nat) :
    ∀ (l : List Document), ∀ x ∈ rankBy score l, x ∈ l := by
  intro l
  induction l with
  | nil => intro x hx; simp [rankBy] at hx
  | cons d ds ih =>
    intro x hx
    simp only [rankBy] at hx
    rcases mem_insertRanked score d _ x hx with rfl | hx'
    · exact List.mem_cons_self _ _
    · exact List.mem_cons_of_mem _ (ih x hx')

/-- C9: the retriever handed to the chain is configured with search
type "similarity" and k 2, so it never hands the llm more than 2
retrieved chunks — for any scoring, any store, and any successful run
of the pipeline. -/
theorem C9_retriever_two_chunks :
    retriever.search_type = "similarity".data ∧
    retriever.k = 2 ∧
    (∀ (score : Document → Nat) (vs : VectorStore),
      (retriever.get_relevant score vs).length ≤ 2) ∧
    (∀ (ε : Type) (o : Oracles ε) (r : PipelineResult),
      runPipeline o = .ok r → r.retrieved.length ≤ 2) := by
  refine ⟨rfl, rfl, fun score vs => List.length_take_le 2 (rankBy score vs.entries), ?_⟩
  intro ε o r h
  simp only [runPipeline] at h
  cases hload : o.load_pdfs with
  | error e =>
    simp only [hload, except_error_bind] at h
    exact Except.noConfusion h
  | ok docs =>
    simp only [hload, except_ok_bind] at h
    cases hembed : o.embed_documents (split_documents text_splitter docs) with
    | error e =>
      simp only [hembed, except_error_bind] at h
      exact Except.noConfusion h
    | ok u =>
      simp only [hembed, except_ok_bind] at h
      cases hq : o.embed_query demo_query with
      | error e =>
        simp only [hq, except_error_bind] at h
        exact Except.noConfusion h
      | ok score =>
        simp only [hq, except_ok_bind] at h
        cases hllm : o.llm_answer temperature
            ((as_retriever similarity_search_type search_k).get_relevant score
              ⟨split_documents text_splitter docs⟩) [] demo_query with
        | error e =>
          simp only [hllm, except_error_bind] at h
          exact Except.noConfusion h
        | ok answer =>
          simp only [hllm, except_ok_bind, Except.ok.injEq] at h
          subst h
          exact List.length_take_le 2 _

/-- Witness for C9 at a concrete input: the pipeline under all-ok
oracles retrieves at most 2 chunks. -/
theorem C9_retriever_two_chunks_witness :
    resultW.retrieved.length ≤ 2 :=
  C9_retriever_two_chunks.2.2.2 Unit oraclesOk resultW rfl

/-- C10: the `documents` variable is rebound to the chunk list, the
vector store is built from that chunk list only, and every stored
entry, every demo similarity-search result and every retrieved chunk
is an element of the splitter's output, never an original unsplit
document that is not itself a chunk. -/
theorem C10_store_holds_chunks_only :
    ∀ documents0 : List Document,
      (∀ (ε : Type) (embed : List Document → Except ε Unit) (vs : VectorStore),
        chroma_from_documents embed (split_documents text_splitter documents0) = .ok vs →
        vs.entries = split_documents text_splitter documents0) ∧
      (∀ (score : Document → Nat) (k : Nat),
        ∀ d ∈ VectorStore.similarity_search ⟨split_documents text_splitter documents0⟩ score k,
          d ∈ split_documents text_splitter documents0) ∧
      (∀ score : Document → Nat,
        ∀ d ∈ retriever.get_relevant score ⟨split_documents text_splitter documents0⟩,
          d ∈ split_documents text_splitter documents0) := by
  intro documents0
  refine ⟨?_, ?_, ?_⟩
  · intro ε embed vs h
    simp only [chroma_from_documents] at h
    cases he : embed (split_documents text_splitter documents0) with
    | error e =>
      simp only [he, except_error_bind] at h
      exact Except.noConfusion h
    | ok u =>
      simp only [he, except_ok_bind, Except.ok.injEq] at h
      subst h
      rfl
  · intro score k d hd
    exact mem_rankBy score _ d
      ((List.take_sublist k _).mem hd)
  · intro score d hd
    exact mem_rankBy score _ d
      ((List.take_sublist retriever.k _).mem hd)

/-- Witness for C10 at a concrete input: the store built from the
chunks of the tiny document holds exactly those chunks, and search and
retrieval return only chunks. -/
theorem C10_store_holds_chunks_only_witness :
    (⟨[docS]⟩ : VectorStore).entries = split_documents text_splitter [docS] ∧
    docS ∈ split_documents text_splitter [docS] ∧
    docS ∈ split_documents text_splitter [docS] :=
  ⟨(C10_store_holds_chunks_only [docS]).1 Unit (fun _ => .ok ()) ⟨[docS]⟩ rfl,
   (C10_store_holds_chunks_only [docS]).2.1 (fun _ => 0) 4 docS (by decide),
   (C10_store_holds_chunks_only [docS]).2.2 (fun _ => 0) docS (by decide)⟩

end DocChat
